import Mathlib

/-!
Shallow embedding of the proxy-transaction correlation engine
(`src/lib/ProxyDetection.ts` of the wallet repository) together with proofs
checking the natural-language specification against it.

Conventions of the embedding:
* JavaScript truthiness of optional numbers and strings is kept explicitly
  (`0`, `undefined` and `""` are falsy), via `truthyNat` / `truthyStr`.
* The two external stores read by the engine (address ownership and the
  tracked-proxy list) are passed in as an explicit environment `Env`.
* `handleProxyTransaction` returns `Option HandleResult`: `none` models the
  `TypeError` thrown by `Object.values(undefined)` when the known-transaction
  map has no entry for the proxy address; `some` carries the returned related
  transaction, the subscription decision, and which proxy-store call was made.
-/

namespace ProxyDetection

/-- Transaction states. Modelled from the spec: the `TransactionState` enum of
`@/stores/Transactions` is not among the provided sources; §3 of the spec lists
NEW/PENDING, CONFIRMED, INVALIDATED, EXPIRED as the states. -/
inductive TransactionState where
  | NEW
  | PENDING
  | CONFIRMED
  | INVALIDATED
  | EXPIRED
  deriving Repr, DecidableEq

/-- Transaction record. Modelled from the spec (§3 data model) restricted to
the fields read by `ProxyDetection.ts`; the defining `Transactions.ts` store is
not among the provided sources. `dataRaw` is the `tx.data.raw` extra-data hex
string. -/
structure Transaction where
  transactionHash : String
  sender : String
  recipient : String
  value : Nat
  fee : Nat
  timestamp : Option Nat
  blockHeight : Option Nat
  validityStartHeight : Nat
  state : TransactionState
  relatedTransactionHash : Option String
  dataRaw : String
  deriving Repr, DecidableEq

/-- JavaScript truthiness of an optional number: `undefined` and `0` are falsy. -/
def truthyNat : Option Nat → Bool
  | none => false
  | some v => v != 0

/-- JavaScript truthiness of an optional string: `undefined` and `""` are falsy. -/
def truthyStr : Option String → Bool
  | none => false
  | some s => s != ""

/-- ProxyType enum (ProxyDetection.ts lines 5-8). -/
inductive ProxyType where
  | CASHLINK
  | HTLC_PROXY
  deriving Repr, DecidableEq, Fintype

/-- ProxyTransactionDirection enum (ProxyDetection.ts lines 10-13). -/
inductive ProxyTransactionDirection where
  | FUND
  | REDEEM
  deriving Repr, DecidableEq, Fintype

/-- One lowercase hexadecimal digit for a value below 16. -/
def hexDigit (n : Nat) : Char :=
  if n < 10 then Char.ofNat (48 + n) else Char.ofNat (97 + (n - 10))

/-- Rendering of one byte as `value.toString(16).padStart(2, '0')`: exactly two
lowercase hex digits for values below 256. -/
def byteToHex (v : Nat) : String :=
  String.mk [hexDigit (v / 16 % 16), hexDigit (v % 16)]

/-- `proxyTransactionIdentifierToExtraData` (ProxyDetection.ts lines 15-22):
a leading `0` byte, then one byte per character of the identifier with value
`charCodeAt + 63` (truncated to a byte by the `Uint8Array`), all bytes rendered
as two lowercase hex digits and concatenated by the `reduce`. -/
def proxyTransactionIdentifierToExtraData (identifier : String) : String :=
  let extraData : List Nat := 0 :: identifier.data.map (fun c => (c.toNat + 63) % 256)
  extraData.foldl (fun hex v => hex ++ byteToHex v) ""

/-- The `ProxyExtraData` table (ProxyDetection.ts lines 24-33). -/
def ProxyExtraData (proxyType : ProxyType) (direction : ProxyTransactionDirection) : String :=
  match proxyType, direction with
  | ProxyType.CASHLINK, ProxyTransactionDirection.FUND =>
    proxyTransactionIdentifierToExtraData "CASH"
  | ProxyType.CASHLINK, ProxyTransactionDirection.REDEEM =>
    proxyTransactionIdentifierToExtraData "LINK"
  | ProxyType.HTLC_PROXY, ProxyTransactionDirection.FUND =>
    proxyTransactionIdentifierToExtraData "HPFD"
  | ProxyType.HTLC_PROXY, ProxyTransactionDirection.REDEEM =>
    proxyTransactionIdentifierToExtraData "HPRD"

/-- ASCII lower-casing of one character, as `String.prototype.toLowerCase`
behaves on the ASCII range (the range all stored tags and hex data live in). -/
def jsCharToLower (c : Char) : Char :=
  if 65 ≤ c.toNat && c.toNat ≤ 90 then Char.ofNat (c.toNat + 32) else c

/-- ASCII lower-casing of a string (`data.toLowerCase()` restricted to ASCII),
written structurally over the character list so that it evaluates by kernel
reduction. -/
def jsToLower (s : String) : String :=
  String.mk (s.data.map jsCharToLower)

/-- `isProxyData` (ProxyDetection.ts lines 35-46): lower-cases the data and
checks membership in the table restricted by the optional filters. -/
def isProxyData (data : String) (proxyType : Option ProxyType)
    (transactionDirection : Option ProxyTransactionDirection) : Bool :=
  let data := jsToLower data
  let proxyTypesToCheck := match proxyType with
    | some t => [t]
    | none => [ProxyType.CASHLINK, ProxyType.HTLC_PROXY]
  let directionsToCheck := match transactionDirection with
    | some d => [d]
    | none => [ProxyTransactionDirection.FUND, ProxyTransactionDirection.REDEEM]
  proxyTypesToCheck.any (fun type =>
    directionsToCheck.any (fun dir => ProxyExtraData type dir == data))

/-- External state read by the engine: the address-ownership registry
(`useAddressStore().state.addressInfos`, truthiness of the looked-up entry) and
the tracked proxy list (`useProxyStore().allProxies`). -/
structure Env where
  owned : String → Bool
  allProxies : List String

/-- The funding/redeeming classification inside `getProxyAddress`
(ProxyDetection.ts lines 53-55): FUND tag for any proxy kind, or sender locally
owned, or recipient a tracked proxy address. -/
def getProxyIsFunding (env : Env) (tx : Transaction) : Bool :=
  isProxyData tx.dataRaw none (some ProxyTransactionDirection.FUND)
  || env.owned tx.sender
  || env.allProxies.any (fun proxy => tx.recipient == proxy)

/-- `getProxyAddress` (ProxyDetection.ts lines 49-57). -/
def getProxyAddress (env : Env) (tx : Transaction) : String :=
  if getProxyIsFunding env tx then tx.recipient else tx.sender

/-- Is the candidate `proxyTx` chronologically after `tx`? The comparison of
ProxyDetection.ts lines 100-106: timestamps when both are truthy, else block
heights when both are truthy, else validity start heights — strict `<` for the
first two, non-strict `<=` for the fallback. -/
def laterThanTx (tx proxyTx : Transaction) : Bool :=
  if truthyNat tx.timestamp && truthyNat proxyTx.timestamp then
    decide (tx.timestamp.getD 0 < proxyTx.timestamp.getD 0)
  else if truthyNat tx.blockHeight && truthyNat proxyTx.blockHeight then
    decide (tx.blockHeight.getD 0 < proxyTx.blockHeight.getD 0)
  else
    decide (tx.validityStartHeight ≤ proxyTx.validityStartHeight)

/-- Is the candidate `proxyTx` chronologically before `tx`? The comparison of
ProxyDetection.ts lines 117-123, mirror image of `laterThanTx` (strict `>` on
timestamps and block heights, non-strict `>=` on validity start heights). -/
def earlierThanTx (tx proxyTx : Transaction) : Bool :=
  if truthyNat tx.timestamp && truthyNat proxyTx.timestamp then
    decide (tx.timestamp.getD 0 > proxyTx.timestamp.getD 0)
  else if truthyNat tx.blockHeight && truthyNat proxyTx.blockHeight then
    decide (tx.blockHeight.getD 0 > proxyTx.blockHeight.getD 0)
  else
    decide (tx.validityStartHeight ≥ proxyTx.validityStartHeight)

/-- The candidate filter predicate of `handleProxyTransaction`
(ProxyDetection.ts lines 86-131), applied to each `proxyTx` of the known
transactions at the proxy address. -/
def isPotentialRelatedTx (env : Env) (tx : Transaction) (proxyAddress : String)
    (isCashlink isFunding : Bool) (proxyTx : Transaction) : Bool :=
  !truthyStr proxyTx.relatedTransactionHash
  && proxyTx.state != TransactionState.INVALIDATED
  && proxyTx.state != TransactionState.EXPIRED
  && (env.owned tx.sender || env.owned tx.recipient
      || env.owned proxyTx.sender || env.owned proxyTx.recipient)
  && (if isFunding then
        proxyTx.sender == proxyAddress
        && laterThanTx tx proxyTx
        && (if isCashlink then decide (tx.value ≥ proxyTx.value + proxyTx.fee)
            else tx.value == proxyTx.value + proxyTx.fee)
      else
        proxyTx.recipient == proxyAddress
        && earlierThanTx tx proxyTx
        && (if isCashlink then decide (tx.value + tx.fee ≤ proxyTx.value)
            else tx.value + tx.fee == proxyTx.value))

/-- `isCloser` (ProxyDetection.ts lines 139-141). -/
def isCloser (isFunding : Bool) (checkedValue currentBest : Nat) : Bool :=
  if isFunding then decide (checkedValue < currentBest)
  else decide (checkedValue > currentBest)

/-- Does `potentialRelatedTx` beat the current best `relatedTx` in the
selection loop (ProxyDetection.ts lines 144-148)? Field priority as in the
filter, with `isCloser` on whichever field is mutually truthy. -/
def closerThanBest (isFunding : Bool) (relatedTx potentialRelatedTx : Transaction) : Bool :=
  if truthyNat relatedTx.timestamp && truthyNat potentialRelatedTx.timestamp then
    isCloser isFunding (potentialRelatedTx.timestamp.getD 0) (relatedTx.timestamp.getD 0)
  else if truthyNat relatedTx.blockHeight && truthyNat potentialRelatedTx.blockHeight then
    isCloser isFunding (potentialRelatedTx.blockHeight.getD 0) (relatedTx.blockHeight.getD 0)
  else
    isCloser isFunding potentialRelatedTx.validityStartHeight relatedTx.validityStartHeight

/-- One iteration of the `for` loop over `potentialRelatedTxs`
(ProxyDetection.ts lines 142-151). -/
def selectStep (isFunding : Bool) (relatedTx : Option Transaction)
    (potentialRelatedTx : Transaction) : Option Transaction :=
  match relatedTx with
  | none => some potentialRelatedTx
  | some best =>
    if closerThanBest isFunding best potentialRelatedTx then some potentialRelatedTx
    else some best

/-- The whole selection loop: fold `selectStep` over the filtered candidates,
starting from `undefined`. -/
def selectRelatedTx (isFunding : Bool) (potentialRelatedTxs : List Transaction) :
    Option Transaction :=
  potentialRelatedTxs.foldl (selectStep isFunding) none

/-- `needToSubscribeToProxy` (ProxyDetection.ts lines 157-168). When no related
transaction was found this is `true` by short-circuit; otherwise it is the
`some` over the known transactions at the proxy. -/
def needToSubscribeToProxy (env : Env) (tx : Transaction) (relatedTx : Option Transaction)
    (proxyTransactions : List Transaction) : Bool :=
  match relatedTx with
  | none => true
  | some related =>
    proxyTransactions.any (fun proxyTx =>
      (!truthyStr proxyTx.relatedTransactionHash
        && proxyTx.transactionHash != tx.transactionHash
        && proxyTx.transactionHash != related.transactionHash)
      || (proxyTx.state != TransactionState.CONFIRMED
          && !env.owned proxyTx.sender && !env.owned proxyTx.recipient))

/-- Which proxy-store call `handleProxyTransaction` makes at the end
(ProxyDetection.ts lines 170-181). -/
inductive ProxyAction where
  | addFundedProxy
  | addClaimedProxy
  | removeProxy
  deriving Repr, DecidableEq

/-- Observable outcome of one `handleProxyTransaction` call: the returned
related transaction, the subscription decision, and the proxy-store call made. -/
structure HandleResult where
  related : Option Transaction
  needsSubscription : Bool
  action : ProxyAction
  deriving Repr, DecidableEq

/-- `handleProxyTransaction` (ProxyDetection.ts lines 59-184). The map of known
proxy transactions is passed as a lookup returning the `Object.values`
enumeration (insertion order) of the per-address record. The result is `none`
exactly where the TS code throws: `Object.values(knownProxyTransactions[proxyAddress])`
raises a TypeError when the map has no entry for the proxy address — the
`|| [tx]` fallback on line 64 is dead code, since `Object.values` either throws
or returns an array, and every array is truthy. -/
def handleProxyTransaction (env : Env) (tx : Transaction)
    (knownProxyTransactions : String → Option (List Transaction)) : Option HandleResult :=
  let proxyAddress := getProxyAddress env tx
  match knownProxyTransactions proxyAddress with
  | none => none
  | some proxyTransactions =>
    let isCashlink := isProxyData tx.dataRaw (some ProxyType.CASHLINK) none
    let isFunding := proxyAddress == tx.recipient
    let relatedTx : Option Transaction :=
      if truthyStr tx.relatedTransactionHash then
        proxyTransactions.find? (fun proxyTx =>
          some proxyTx.transactionHash == tx.relatedTransactionHash)
      else
        selectRelatedTx isFunding
          (proxyTransactions.filter
            (isPotentialRelatedTx env tx proxyAddress isCashlink isFunding))
    let needsSubscription := needToSubscribeToProxy env tx relatedTx proxyTransactions
    some {
      related := relatedTx
      needsSubscription := needsSubscription
      action :=
        if needsSubscription then
          if isFunding then ProxyAction.addFundedProxy else ProxyAction.addClaimedProxy
        else ProxyAction.removeProxy
    }

/-- All candidate-filter checks of `isPotentialRelatedTx` except the amount
check: not yet related, not invalidated/expired, ownership guard, and the
role/chronology part of the branch. Used to state the amount-check claim. -/
def passesNonAmountChecks (env : Env) (tx : Transaction) (proxyAddress : String)
    (isFunding : Bool) (proxyTx : Transaction) : Bool :=
  !truthyStr proxyTx.relatedTransactionHash
  && proxyTx.state != TransactionState.INVALIDATED
  && proxyTx.state != TransactionState.EXPIRED
  && (env.owned tx.sender || env.owned tx.recipient
      || env.owned proxyTx.sender || env.owned proxyTx.recipient)
  && (if isFunding then proxyTx.sender == proxyAddress && laterThanTx tx proxyTx
      else proxyTx.recipient == proxyAddress && earlierThanTx tx proxyTx)

/-! Concrete fixtures used to exercise the engine on the scenarios named by the
specification's testable properties (§8). -/

/-- The cashlink funding tag. -/
def cashFundTag : String := ProxyExtraData ProxyType.CASHLINK ProxyTransactionDirection.FUND

/-- The cashlink redeeming tag. -/
def cashRedeemTag : String := ProxyExtraData ProxyType.CASHLINK ProxyTransactionDirection.REDEEM

/-- The HTLC-proxy funding tag. -/
def htlcFundTag : String := ProxyExtraData ProxyType.HTLC_PROXY ProxyTransactionDirection.FUND

/-- The HTLC-proxy redeeming tag. -/
def htlcRedeemTag : String := ProxyExtraData ProxyType.HTLC_PROXY ProxyTransactionDirection.REDEEM

/-- Environment in which only address `U` is locally owned and no proxy is
tracked yet. -/
def envOwnU : Env := ⟨fun a => a == "U", []⟩

/-- Environment in which only address `P8` is locally owned. -/
def envOwnP8 : Env := ⟨fun a => a == "P8", []⟩

/-- Cashlink funding tx F (value 100, fee 0) at proxy `P1`. -/
def txFc : Transaction :=
  ⟨"F1c", "U", "P1", 100, 0, some 1000, some 10, 5,
    TransactionState.CONFIRMED, none, cashFundTag⟩

/-- Cashlink redeeming tx R (value 60, fee 1) at proxy `P1`, later than F. -/
def txRc : Transaction :=
  ⟨"R1c", "P1", "V", 60, 1, some 2000, some 20, 15,
    TransactionState.PENDING, none, cashRedeemTag⟩

/-- Known transactions at cashlink proxy `P1`: the funding tx and the redeeming
tx itself. -/
def knownC1 : String → Option (List Transaction) :=
  fun a => if a == "P1" then some [txFc, txRc] else none

/-- HTLC-proxy funding tx (value 100, fee 0) at proxy `H1`. -/
def txFh : Transaction :=
  ⟨"F1h", "U", "H1", 100, 0, some 1000, some 10, 5,
    TransactionState.CONFIRMED, none, htlcFundTag⟩

/-- HTLC-proxy redeeming tx (value 60, fee 1) at proxy `H1`. -/
def txRh : Transaction :=
  ⟨"R1h", "H1", "V", 60, 1, some 2000, some 20, 15,
    TransactionState.PENDING, none, htlcRedeemTag⟩

/-- HTLC-proxy redeeming tx (value 100, fee 0) at proxy `H1`. -/
def txRh100 : Transaction :=
  ⟨"R1j", "H1", "V", 100, 0, some 2000, some 20, 15,
    TransactionState.PENDING, none, htlcRedeemTag⟩

/-- Known transactions at HTLC proxy `H1` for the partial-redemption attempt. -/
def knownC1h : String → Option (List Transaction) :=
  fun a => if a == "H1" then some [txFh, txRh] else none

/-- Known transactions at HTLC proxy `H1` for the exact-redemption attempt. -/
def knownC1j : String → Option (List Transaction) :=
  fun a => if a == "H1" then some [txFh, txRh100] else none

/-- Earlier funding tx F1 (value 100, fee 0) at proxy `P2`. -/
def txF1L : Transaction :=
  ⟨"F1L", "U", "P2", 100, 0, some 1000, some 10, 5,
    TransactionState.CONFIRMED, none, cashFundTag⟩

/-- Later funding tx F2 (value 100, fee 0) at proxy `P2`. -/
def txF2L : Transaction :=
  ⟨"F2L", "U", "P2", 100, 0, some 1500, some 15, 8,
    TransactionState.CONFIRMED, none, cashFundTag⟩

/-- Redeeming tx R (value 100, fee 0) at proxy `P2`, after both fundings. -/
def txRL : Transaction :=
  ⟨"RL", "P2", "V", 100, 0, some 2000, some 20, 18,
    TransactionState.PENDING, none, cashRedeemTag⟩

/-- Known transactions at proxy `P2` (LIFO scenario). -/
def knownLifo : String → Option (List Transaction) :=
  fun a => if a == "P2" then some [txF1L, txF2L, txRL] else none

/-- Funding tx F (value 100, fee 0) at proxy `P3`. -/
def txFF : Transaction :=
  ⟨"FF", "U", "P3", 100, 0, some 1000, some 10, 5,
    TransactionState.CONFIRMED, none, cashFundTag⟩

/-- Earlier redeeming candidate R1 at proxy `P3`. -/
def txR1F : Transaction :=
  ⟨"R1F", "P3", "V", 100, 0, some 2000, some 20, 18,
    TransactionState.PENDING, none, cashRedeemTag⟩

/-- Later redeeming candidate R2 at proxy `P3`. -/
def txR2F : Transaction :=
  ⟨"R2F", "P3", "W", 100, 0, some 3000, some 30, 28,
    TransactionState.PENDING, none, cashRedeemTag⟩

/-- Known transactions at proxy `P3` (FIFO scenario), delivered most recent
first as the transaction store does. -/
def knownFifo : String → Option (List Transaction) :=
  fun a => if a == "P3" then some [txFF, txR2F, txR1F] else none

/-- Funding tx at proxy `P4`, already linked to `R4`, CONFIRMED. -/
def txF4 : Transaction :=
  ⟨"F4", "U", "P4", 100, 0, some 1000, some 10, 5,
    TransactionState.CONFIRMED, some "R4", cashFundTag⟩

/-- Redeeming tx at proxy `P4`, already linked to `F4`, CONFIRMED. -/
def txR4 : Transaction :=
  ⟨"R4", "P4", "V", 100, 0, some 2000, some 20, 15,
    TransactionState.CONFIRMED, some "F4", cashRedeemTag⟩

/-- Known transactions at proxy `P4`: the fully matched, confirmed pair. -/
def knownC4 : String → Option (List Transaction) :=
  fun a => if a == "P4" then some [txF4, txR4] else none

/-- Unconfirmed funding tx at fresh proxy `P5`, no counterpart known yet. -/
def txF5 : Transaction :=
  ⟨"F5", "U", "P5", 100, 0, none, none, 5,
    TransactionState.PENDING, none, cashFundTag⟩

/-- Known transactions at proxy `P5`: only the funding tx itself. -/
def knownC5only : String → Option (List Transaction) :=
  fun a => if a == "P5" then some [txF5] else none

/-- Redeeming tx at proxy `P4z` whose `relatedTransactionHash` names an unknown
hash `ZZ`. -/
def txR4z : Transaction :=
  ⟨"R4z", "P4z", "V", 100, 0, some 2000, some 20, 15,
    TransactionState.PENDING, some "ZZ", cashRedeemTag⟩

/-- Known transactions at proxy `P4z`: only the redeeming tx itself. -/
def knownC9z : String → Option (List Transaction) :=
  fun a => if a == "P4z" then some [txR4z] else none

/-- Self-loop transaction at proxy `P8`: sender and recipient are both the
proxy address, fee 0, no timestamp, no block height. -/
def txSelf : Transaction :=
  ⟨"S8", "P8", "P8", 5, 0, none, none, 7,
    TransactionState.NEW, none, ""⟩

/-- Known transactions at proxy `P8`: only the self-loop tx. -/
def knownSelf : String → Option (List Transaction) :=
  fun a => if a == "P8" then some [txSelf] else none

/-- Funding candidate `X` at proxy `P9` with no timestamp and no block height. -/
def txXv : Transaction :=
  ⟨"Xv", "U", "P9", 100, 0, none, none, 5,
    TransactionState.PENDING, none, ""⟩

/-- Funding candidate `Y` at proxy `P9`, identical ordering fields to `X`. -/
def txYv : Transaction :=
  ⟨"Yv", "U", "P9", 100, 0, none, none, 5,
    TransactionState.PENDING, none, ""⟩

/-- Redeeming tx at proxy `P9` with no timestamp and no block height. -/
def txRv : Transaction :=
  ⟨"Rv", "P9", "V", 100, 0, none, none, 10,
    TransactionState.PENDING, none, ""⟩

/-- Known transactions at proxy `P9`, enumerating `X` before `Y`. -/
def knownTieXY : String → Option (List Transaction) :=
  fun a => if a == "P9" then some [txXv, txYv, txRv] else none

/-- Known transactions at proxy `P9`, enumerating `Y` before `X`. -/
def knownTieYX : String → Option (List Transaction) :=
  fun a => if a == "P9" then some [txYv, txXv, txRv] else none

/-- Funding candidate at proxy `P9e` with validity start height equal to the
redeeming tx's. -/
def txEv : Transaction :=
  ⟨"Ev", "U", "P9e", 100, 0, none, none, 10,
    TransactionState.PENDING, none, ""⟩

/-- Redeeming tx at proxy `P9e` with the same validity start height as the
funding candidate and no timestamp or block height. -/
def txRe : Transaction :=
  ⟨"Re", "P9e", "V", 100, 0, none, none, 10,
    TransactionState.PENDING, none, ""⟩

/-- Known transactions at proxy `P9e`. -/
def knownEq : String → Option (List Transaction) :=
  fun a => if a == "P9e" then some [txEv, txRe] else none

/-- Result of handling `txRc` against `knownC1` (computed; checked by proofs). -/
def resC1 : HandleResult := ⟨some txFc, true, ProxyAction.addClaimedProxy⟩

/-- Result of handling `txR4` against `knownC4` (computed; checked by proofs). -/
def resC4 : HandleResult := ⟨some txF4, false, ProxyAction.removeProxy⟩

/-! Helper lemmas about the selection loop. -/

/-- Whatever the selection loop returns was either the initial accumulator or an
element of the iterated list. -/
theorem foldl_selectStep_mem (isFunding : Bool) :
    ∀ (l : List Transaction) (acc : Option Transaction) (c : Transaction),
      l.foldl (selectStep isFunding) acc = some c → acc = some c ∨ c ∈ l := by
  intro l
  induction l with
  | nil => exact fun acc c h => Or.inl h
  | cons x xs ih =>
    intro acc c h
    rw [List.foldl_cons] at h
    rcases ih (selectStep isFunding acc x) c h with h' | h'
    · cases acc with
      | none =>
        simp only [selectStep, Option.some.injEq] at h'
        exact Or.inr (h' ▸ List.mem_cons_self x xs)
      | some b =>
        by_cases hc : closerThanBest isFunding b x
        · simp only [selectStep, hc, if_true, Option.some.injEq] at h'
          exact Or.inr (h' ▸ List.mem_cons_self x xs)
        · simp [selectStep, hc] at h'
          exact Or.inl (by rw [h'])
    · exact Or.inr (List.mem_cons_of_mem x h')

/-- Generic minimum property of the selection loop: if every pairwise
comparison between transactions of the carrier list `S` is decided by the key
function, the funding-side loop returns a key-minimal transaction. -/
theorem foldl_selectStep_min_key (key : Transaction → Nat) (S : List Transaction)
    (hcmp : ∀ b ∈ S, ∀ x ∈ S, closerThanBest true b x = isCloser true (key x) (key b)) :
    ∀ (l : List Transaction) (a c : Transaction),
      a ∈ S → (∀ x ∈ l, x ∈ S) →
      l.foldl (selectStep true) (some a) = some c →
      key c ≤ key a ∧ ∀ x ∈ l, key c ≤ key x := by
  intro l
  induction l with
  | nil =>
    intro a c _ _ h
    simp only [List.foldl_nil, Option.some.injEq] at h
    subst h
    exact ⟨Nat.le_refl _, fun x hx => absurd hx (List.not_mem_nil x)⟩
  | cons x xs ih =>
    intro a c ha hl h
    have hx : x ∈ S := hl x (List.mem_cons_self x xs)
    have hxs : ∀ y ∈ xs, y ∈ S := fun y hy => hl y (List.mem_cons_of_mem x hy)
    rw [List.foldl_cons] at h
    have hstep : selectStep true (some a) x =
        if decide (key x < key a) then some x else some a := by
      simp [selectStep, hcmp a ha x hx, isCloser]
    by_cases hlt : key x < key a
    · rw [hstep, if_pos (by simpa using hlt)] at h
      obtain ⟨h1, h2⟩ := ih x c hx hxs h
      refine ⟨Nat.le_trans h1 (Nat.le_of_lt hlt), ?_⟩
      intro y hy
      rcases List.mem_cons.mp hy with rfl | hy'
      · exact h1
      · exact h2 y hy'
    · rw [hstep, if_neg (by simpa using hlt)] at h
      obtain ⟨h1, h2⟩ := ih a c ha hxs h
      refine ⟨h1, ?_⟩
      intro y hy
      rcases List.mem_cons.mp hy with rfl | hy'
      · exact Nat.le_trans h1 (Nat.le_of_not_lt hlt)
      · exact h2 y hy'

/-- Generic maximum property of the selection loop: if every pairwise
comparison between transactions of the carrier list `S` is decided by the key
function, the redeeming-side loop returns a key-maximal transaction. -/
theorem foldl_selectStep_max_key (key : Transaction → Nat) (S : List Transaction)
    (hcmp : ∀ b ∈ S, ∀ x ∈ S, closerThanBest false b x = isCloser false (key x) (key b)) :
    ∀ (l : List Transaction) (a c : Transaction),
      a ∈ S → (∀ x ∈ l, x ∈ S) →
      l.foldl (selectStep false) (some a) = some c →
      key a ≤ key c ∧ ∀ x ∈ l, key x ≤ key c := by
  intro l
  induction l with
  | nil =>
    intro a c _ _ h
    simp only [List.foldl_nil, Option.some.injEq] at h
    subst h
    exact ⟨Nat.le_refl _, fun x hx => absurd hx (List.not_mem_nil x)⟩
  | cons x xs ih =>
    intro a c ha hl h
    have hx : x ∈ S := hl x (List.mem_cons_self x xs)
    have hxs : ∀ y ∈ xs, y ∈ S := fun y hy => hl y (List.mem_cons_of_mem x hy)
    rw [List.foldl_cons] at h
    have hstep : selectStep false (some a) x =
        if decide (key a < key x) then some x else some a := by
      simp [selectStep, hcmp a ha x hx, isCloser]
    by_cases hlt : key a < key x
    · rw [hstep, if_pos (by simpa using hlt)] at h
      obtain ⟨h1, h2⟩ := ih x c hx hxs h
      refine ⟨Nat.le_trans (Nat.le_of_lt hlt) h1, ?_⟩
      intro y hy
      rcases List.mem_cons.mp hy with rfl | hy'
      · exact h1
      · exact h2 y hy'
    · rw [hstep, if_neg (by simpa using hlt)] at h
      obtain ⟨h1, h2⟩ := ih a c ha hxs h
      refine ⟨h1, ?_⟩
      intro y hy
      rcases List.mem_cons.mp hy with rfl | hy'
      · exact Nat.le_trans (Nat.le_of_not_lt hlt) h1
      · exact h2 y hy'

/-- Wrapper over the whole selection loop: under a key deciding every pairwise
comparison among the candidates, the result is a member of the candidate list
that minimizes the key for a funding `tx` and maximizes it for a redeeming
`tx`. -/
theorem selectRelatedTx_extremum_key (fn : Bool) (key : Transaction → Nat)
    (l : List Transaction) (c : Transaction)
    (hcmp : ∀ b ∈ l, ∀ x ∈ l, closerThanBest fn b x = isCloser fn (key x) (key b))
    (h : selectRelatedTx fn l = some c) :
    c ∈ l ∧ ∀ x ∈ l, (fn = true → key c ≤ key x) ∧ (fn = false → key x ≤ key c) := by
  have hmem : c ∈ l := by
    rcases foldl_selectStep_mem fn l none c h with h' | h'
    · cases h'
    · exact h'
  refine ⟨hmem, ?_⟩
  cases l with
  | nil => simp [selectRelatedTx] at h
  | cons a xs =>
    have ha : a ∈ a :: xs := List.mem_cons_self a xs
    have hxs : ∀ x ∈ xs, x ∈ a :: xs := fun x hx => List.mem_cons_of_mem a hx
    have hfold : xs.foldl (selectStep fn) (some a) = some c := h
    cases fn with
    | true =>
      obtain ⟨h1, h2⟩ := foldl_selectStep_min_key key (a :: xs) hcmp xs a c ha hxs hfold
      intro x hx
      refine ⟨fun _ => ?_, fun hf => absurd hf (by simp)⟩
      rcases List.mem_cons.mp hx with rfl | hx'
      · exact h1
      · exact h2 x hx'
    | false =>
      obtain ⟨h1, h2⟩ := foldl_selectStep_max_key key (a :: xs) hcmp xs a c ha hxs hfold
      intro x hx
      refine ⟨fun ht => absurd ht (by simp), fun _ => ?_⟩
      rcases List.mem_cons.mp hx with rfl | hx'
      · exact h1
      · exact h2 x hx'

/-- When both compared transactions carry truthy timestamps, the loop
comparison is decided by the timestamps. -/
theorem closerThanBest_timestamp (fn : Bool) (b x : Transaction)
    (hb : truthyNat b.timestamp = true) (hx : truthyNat x.timestamp = true) :
    closerThanBest fn b x = isCloser fn (x.timestamp.getD 0) (b.timestamp.getD 0) := by
  simp [closerThanBest, hb, hx]

/-- When the current best has no truthy timestamp and both sides carry truthy
block heights, the loop comparison is decided by the block heights. -/
theorem closerThanBest_blockHeight (fn : Bool) (b x : Transaction)
    (hbts : truthyNat b.timestamp = false)
    (hbbh : truthyNat b.blockHeight = true) (hxbh : truthyNat x.blockHeight = true) :
    closerThanBest fn b x = isCloser fn (x.blockHeight.getD 0) (b.blockHeight.getD 0) := by
  simp [closerThanBest, hbts, hbbh, hxbh]

/-- When the current best has neither a truthy timestamp nor a truthy block
height, the loop comparison falls back to the validity start heights. -/
theorem closerThanBest_vsh (fn : Bool) (b x : Transaction)
    (hbts : truthyNat b.timestamp = false)
    (hbbh : truthyNat b.blockHeight = false) :
    closerThanBest fn b x = isCloser fn x.validityStartHeight b.validityStartHeight := by
  simp [closerThanBest, hbts, hbbh]

/-- A transaction passing the candidate filter satisfies the role check of its
branch: sender equals the proxy address for a funding `tx`, recipient equals it
for a redeeming `tx`. -/
theorem isPotentialRelatedTx_role (env : Env) (tx : Transaction) (pA : String)
    (ic fn : Bool) (p : Transaction)
    (h : isPotentialRelatedTx env tx pA ic fn p = true) :
    (if fn then p.sender = pA else p.recipient = pA) := by
  unfold isPotentialRelatedTx at h
  rw [Bool.and_eq_true] at h
  have hb := h.2
  cases fn with
  | true =>
    rw [if_pos rfl] at hb ⊢
    rw [Bool.and_eq_true, Bool.and_eq_true] at hb
    exact eq_of_beq hb.1.1
  | false =>
    rw [if_neg (by simp)] at hb ⊢
    rw [Bool.and_eq_true, Bool.and_eq_true] at hb
    exact eq_of_beq hb.1.1

/-! Claim theorems. -/

/-- C5: each stored proxy tag is the bit-exact hex string of byte `0x00`
followed by one byte per identifier character with value `charCode + 63`,
rendered as two lowercase hex digits each (`CASH`, `LINK`, `HPFD`, `HPRD`
giving the four literals below); `isProxyData` accepts each tag under its own
kind/direction filter, the comparison is case-insensitive on the stored hex,
and any other kind/direction filter rejects the tag. -/
theorem tag_codec_exact :
    ProxyExtraData ProxyType.CASHLINK ProxyTransactionDirection.FUND = "0082809287"
    ∧ ProxyExtraData ProxyType.CASHLINK ProxyTransactionDirection.REDEEM = "008b888d8a"
    ∧ ProxyExtraData ProxyType.HTLC_PROXY ProxyTransactionDirection.FUND = "00878f8583"
    ∧ ProxyExtraData ProxyType.HTLC_PROXY ProxyTransactionDirection.REDEEM = "00878f9183"
    ∧ (∀ (t : ProxyType) (d : ProxyTransactionDirection),
        isProxyData (ProxyExtraData t d) (some t) (some d) = true)
    ∧ isProxyData "008B888D8A" (some ProxyType.CASHLINK)
        (some ProxyTransactionDirection.REDEEM) = true
    ∧ (∀ (t : ProxyType) (d : ProxyTransactionDirection)
          (t' : ProxyType) (d' : ProxyTransactionDirection),
        (t ≠ t' ∨ d ≠ d') →
        isProxyData (ProxyExtraData t d) (some t') (some d') = false) := by
  refine ⟨by decide, by decide, by decide, by decide, by decide, by decide, ?_⟩
  decide

/-- Witness for `tag_codec_exact`: the cashlink funding tag is rejected by the
HTLC-proxy funding filter. -/
theorem tag_codec_exact_witness :
    isProxyData (ProxyExtraData ProxyType.CASHLINK ProxyTransactionDirection.FUND)
      (some ProxyType.HTLC_PROXY) (some ProxyTransactionDirection.FUND) = false :=
  tag_codec_exact.2.2.2.2.2.2 ProxyType.CASHLINK ProxyTransactionDirection.FUND
    ProxyType.HTLC_PROXY ProxyTransactionDirection.FUND (Or.inl (by decide))

/-- C6: `getProxyAddress` classifies a transaction as funding, returning the
recipient, exactly when its extra data carries a FUND tag of any proxy kind, or
its sender is locally owned, or its recipient is a tracked proxy address;
otherwise it classifies it as redeeming and returns the sender — the
classification always yields exactly one of the two roles. -/
theorem classification_exclusive :
    ∀ (env : Env) (tx : Transaction),
      (getProxyIsFunding env tx = true ↔
        (isProxyData tx.dataRaw none (some ProxyTransactionDirection.FUND) = true
         ∨ env.owned tx.sender = true
         ∨ env.allProxies.any (fun proxy => tx.recipient == proxy) = true))
      ∧ (getProxyAddress env tx
          = if getProxyIsFunding env tx then tx.recipient else tx.sender)
      ∧ ((getProxyIsFunding env tx = true ∧ getProxyAddress env tx = tx.recipient)
         ∨ (getProxyIsFunding env tx = false ∧ getProxyAddress env tx = tx.sender)) := by
  intro env tx
  refine ⟨?_, rfl, ?_⟩
  · simp [getProxyIsFunding, Bool.or_eq_true, or_assoc]
  · cases h : getProxyIsFunding env tx with
    | false => exact Or.inr ⟨rfl, by simp [getProxyAddress, h]⟩
    | true => exact Or.inl ⟨rfl, by simp [getProxyAddress, h]⟩

/-- C1: under the non-amount filter checks, a candidate passes the filter
exactly when the amount check holds: for a cashlink, a funding tx matches a
redeeming candidate iff `tx.value >= candidate.value + candidate.fee` and a
redeeming tx matches a funding candidate iff `tx.value + tx.fee <=
candidate.value`; for a non-cashlink proxy the corresponding exact equalities
are required. Concretely, the cashlink redeeming tx (value 60, fee 1) after the
funding tx (value 100, fee 0) correlates to it, the same numbers under
HTLC-proxy tags yield no related transaction, and value 100 / fee 0 under
HTLC-proxy tags match. -/
theorem amount_check_characterization :
    (∀ (env : Env) (tx : Transaction) (proxyAddress : String) (isFunding : Bool)
        (proxyTx : Transaction),
        passesNonAmountChecks env tx proxyAddress isFunding proxyTx = true →
        ((isPotentialRelatedTx env tx proxyAddress true isFunding proxyTx = true ↔
            (if isFunding then proxyTx.value + proxyTx.fee ≤ tx.value
             else tx.value + tx.fee ≤ proxyTx.value))
         ∧ (isPotentialRelatedTx env tx proxyAddress false isFunding proxyTx = true ↔
            (if isFunding then tx.value = proxyTx.value + proxyTx.fee
             else tx.value + tx.fee = proxyTx.value))))
    ∧ (handleProxyTransaction envOwnU txRc knownC1).map (fun r => r.related)
        = some (some txFc)
    ∧ (handleProxyTransaction envOwnU txRh knownC1h).map (fun r => r.related)
        = some none
    ∧ (handleProxyTransaction envOwnU txRh100 knownC1j).map (fun r => r.related)
        = some (some txFh) := by
  refine ⟨?_, by decide, by decide, by decide⟩
  intro env tx proxyAddress isFunding proxyTx h
  have key : ∀ ic : Bool, isPotentialRelatedTx env tx proxyAddress ic isFunding proxyTx
      = (passesNonAmountChecks env tx proxyAddress isFunding proxyTx
         && (if isFunding then
               (if ic then decide (tx.value ≥ proxyTx.value + proxyTx.fee)
                else tx.value == proxyTx.value + proxyTx.fee)
             else
               (if ic then decide (tx.value + tx.fee ≤ proxyTx.value)
                else tx.value + tx.fee == proxyTx.value))) := by
    intro ic
    cases isFunding <;> cases ic <;>
      simp [isPotentialRelatedTx, passesNonAmountChecks, Bool.and_assoc]
  constructor
  · rw [key true, h, Bool.true_and]
    cases isFunding <;> simp [ge_iff_le]
  · rw [key false, h, Bool.true_and]
    cases isFunding <;> simp

/-- Witness for `amount_check_characterization`: the cashlink funding candidate
passes the full filter for the partially redeeming tx. -/
theorem amount_check_characterization_witness :
    isPotentialRelatedTx envOwnU txRc "P1" true false txFc = true :=
  ((amount_check_characterization.1 envOwnU txRc "P1" false txFc (by decide)).1).mpr
    (by decide)

/-- C2: among the surviving candidates, the selected related transaction
minimizes the chosen ordering field for a funding tx (first-in-first-out:
earliest redeemer) and maximizes it for a redeeming tx (last-in-first-out:
latest funding), in each of the three ordering regimes — timestamps when every
candidate carries a truthy timestamp, block heights when no candidate carries a
truthy timestamp and every candidate carries a truthy block height, and
validity start heights when no candidate carries either. Concretely, with two
equal-value fundings F1 (earlier) and F2 (later) the redeeming tx correlates to
F2, and a funding tx with two later amount-matching redeemers R1 (earlier) and
R2 (later) correlates to R1. -/
theorem tie_break_direction :
    (∀ (isFunding : Bool) (l : List Transaction) (c : Transaction),
        (∀ x ∈ l, truthyNat x.timestamp = true) →
        selectRelatedTx isFunding l = some c →
        c ∈ l ∧ ∀ x ∈ l,
          (isFunding = true → c.timestamp.getD 0 ≤ x.timestamp.getD 0)
          ∧ (isFunding = false → x.timestamp.getD 0 ≤ c.timestamp.getD 0))
    ∧ (∀ (isFunding : Bool) (l : List Transaction) (c : Transaction),
        (∀ x ∈ l, truthyNat x.timestamp = false ∧ truthyNat x.blockHeight = true) →
        selectRelatedTx isFunding l = some c →
        c ∈ l ∧ ∀ x ∈ l,
          (isFunding = true → c.blockHeight.getD 0 ≤ x.blockHeight.getD 0)
          ∧ (isFunding = false → x.blockHeight.getD 0 ≤ c.blockHeight.getD 0))
    ∧ (∀ (isFunding : Bool) (l : List Transaction) (c : Transaction),
        (∀ x ∈ l, truthyNat x.timestamp = false ∧ truthyNat x.blockHeight = false) →
        selectRelatedTx isFunding l = some c →
        c ∈ l ∧ ∀ x ∈ l,
          (isFunding = true → c.validityStartHeight ≤ x.validityStartHeight)
          ∧ (isFunding = false → x.validityStartHeight ≤ c.validityStartHeight))
    ∧ (handleProxyTransaction envOwnU txRL knownLifo).map (fun r => r.related)
        = some (some txF2L)
    ∧ (handleProxyTransaction envOwnU txFF knownFifo).map (fun r => r.related)
        = some (some txR1F) := by
  refine ⟨?_, ?_, ?_, by decide, by decide⟩
  · intro isFunding l c hl h
    exact selectRelatedTx_extremum_key isFunding (fun t => t.timestamp.getD 0) l c
      (fun b hb x hx => closerThanBest_timestamp isFunding b x (hl b hb) (hl x hx)) h
  · intro isFunding l c hl h
    exact selectRelatedTx_extremum_key isFunding (fun t => t.blockHeight.getD 0) l c
      (fun b hb x hx =>
        closerThanBest_blockHeight isFunding b x (hl b hb).1 (hl b hb).2 (hl x hx).2) h
  · intro isFunding l c hl h
    exact selectRelatedTx_extremum_key isFunding (fun t => t.validityStartHeight) l c
      (fun b hb x hx => closerThanBest_vsh isFunding b x (hl b hb).1 (hl b hb).2) h

/-- Witness for `tie_break_direction`, exercising the validity-start-height
regime: on the two pending candidates X and Y, which carry neither timestamps
nor block heights, the redeeming-side selection returns a maximizer of the
validity start heights. -/
theorem tie_break_direction_witness :
    txXv ∈ [txXv, txYv] ∧ ∀ x ∈ [txXv, txYv],
      ((false : Bool) = true → txXv.validityStartHeight ≤ x.validityStartHeight)
      ∧ ((false : Bool) = false → x.validityStartHeight ≤ txXv.validityStartHeight) :=
  tie_break_direction.2.2.1 false [txXv, txYv] txXv (by decide) (by decide)

/-- C3 counterexample: the claim that the chronological decision uses strict
comparison on whichever field is selected fails for the `validityStartHeight`
fallback — two transactions with equal validity start heights and no timestamp
or block height are considered one chronologically before the other, and the
matcher correlates them. -/
theorem chrono_equal_vsh_counterexample :
    txRe.validityStartHeight = txEv.validityStartHeight
    ∧ txRe.timestamp = none ∧ txRe.blockHeight = none
    ∧ txEv.timestamp = none ∧ txEv.blockHeight = none
    ∧ earlierThanTx txRe txEv = true
    ∧ (handleProxyTransaction envOwnU txRe knownEq).map (fun r => r.related)
        = some (some txEv) :=
  ⟨rfl, rfl, rfl, rfl, rfl, by decide, by decide⟩

/-- C3 amended: the compared field is chosen by priority — timestamp when both
sides have a truthy one, else block height when both have a truthy one, else
validity start height — and the after/before decision is strict `<` / `>` on
timestamps and block heights, but non-strict `<=` / `>=` on the validity start
height fallback, so two transactions with equal validity start heights (and no
mutually available timestamp or block height) each count as chronologically
after and before the other. -/
theorem chrono_field_priority_amended :
    ∀ tx proxyTx : Transaction,
      ((truthyNat tx.timestamp && truthyNat proxyTx.timestamp) = true →
        (laterThanTx tx proxyTx = decide (tx.timestamp.getD 0 < proxyTx.timestamp.getD 0)
         ∧ earlierThanTx tx proxyTx
            = decide (proxyTx.timestamp.getD 0 < tx.timestamp.getD 0)))
      ∧ ((truthyNat tx.timestamp && truthyNat proxyTx.timestamp) = false →
          (truthyNat tx.blockHeight && truthyNat proxyTx.blockHeight) = true →
          (laterThanTx tx proxyTx
              = decide (tx.blockHeight.getD 0 < proxyTx.blockHeight.getD 0)
           ∧ earlierThanTx tx proxyTx
              = decide (proxyTx.blockHeight.getD 0 < tx.blockHeight.getD 0)))
      ∧ ((truthyNat tx.timestamp && truthyNat proxyTx.timestamp) = false →
          (truthyNat tx.blockHeight && truthyNat proxyTx.blockHeight) = false →
          (laterThanTx tx proxyTx
              = decide (tx.validityStartHeight ≤ proxyTx.validityStartHeight)
           ∧ earlierThanTx tx proxyTx
              = decide (proxyTx.validityStartHeight ≤ tx.validityStartHeight))) := by
  intro tx proxyTx
  refine ⟨fun h1 => ⟨?_, ?_⟩, fun h1 h2 => ⟨?_, ?_⟩, fun h1 h2 => ⟨?_, ?_⟩⟩ <;>
    simp [laterThanTx, earlierThanTx, *]

/-- Witness for `chrono_field_priority_amended` at the cashlink fixture pair:
both carry timestamps, so the timestamp comparison is selected. -/
theorem chrono_field_priority_amended_witness :
    laterThanTx txFc txRc = decide (txFc.timestamp.getD 0 < txRc.timestamp.getD 0) :=
  ((chrono_field_priority_amended txFc txRc).1 (by decide)).1

/-- C4: `needsSubscription` is true exactly when no related transaction was
found, or some known transaction other than `tx` and the chosen related one
still lacks a related-transaction hash, or some known transaction is not
CONFIRMED while neither side of it is locally owned; when true the engine
reports the proxy funded (tx funding) or claimed (otherwise), when false it
removes the proxy. Concretely, the mutually linked confirmed pair yields
`false` with removal, and a lone unconfirmed funding tx yields `true`. -/
theorem needs_subscription_characterization :
    (∀ (env : Env) (tx : Transaction) (rel : Option Transaction)
        (ptxs : List Transaction),
        needToSubscribeToProxy env tx rel ptxs = true ↔
          (rel = none ∨ ∃ r, rel = some r ∧ ∃ p ∈ ptxs,
            ((truthyStr p.relatedTransactionHash = false
              ∧ p.transactionHash ≠ tx.transactionHash
              ∧ p.transactionHash ≠ r.transactionHash)
             ∨ (p.state ≠ TransactionState.CONFIRMED
                ∧ env.owned p.sender = false ∧ env.owned p.recipient = false))))
    ∧ (∀ (env : Env) (tx : Transaction) (known : String → Option (List Transaction))
          (ptxs : List Transaction) (res : HandleResult),
        known (getProxyAddress env tx) = some ptxs →
        handleProxyTransaction env tx known = some res →
        (res.needsSubscription = needToSubscribeToProxy env tx res.related ptxs
         ∧ res.action = (if res.needsSubscription then
              (if getProxyAddress env tx == tx.recipient then ProxyAction.addFundedProxy
               else ProxyAction.addClaimedProxy)
            else ProxyAction.removeProxy)))
    ∧ (handleProxyTransaction envOwnU txR4 knownC4).map
        (fun r => (r.needsSubscription, r.action))
        = some (false, ProxyAction.removeProxy)
    ∧ (handleProxyTransaction envOwnU txF5 knownC5only).map
        (fun r => (r.needsSubscription, r.action))
        = some (true, ProxyAction.addFundedProxy) := by
  refine ⟨?_, ?_, by decide, by decide⟩
  · intro env tx rel ptxs
    cases rel with
    | none => simp [needToSubscribeToProxy]
    | some r =>
      simp [needToSubscribeToProxy, List.any_eq_true, Bool.or_eq_true, Bool.and_eq_true,
        Bool.not_eq_true', bne_iff_ne, and_assoc, or_assoc]
  · intro env tx known ptxs res h1 h2
    simp only [handleProxyTransaction, h1, Option.some.injEq] at h2
    subst h2
    exact ⟨rfl, rfl⟩

/-- Witness for `needs_subscription_characterization` at the linked confirmed
pair: the returned decision agrees with `needToSubscribeToProxy` and the action
is the removal. -/
theorem needs_subscription_characterization_witness :
    resC4.needsSubscription = needToSubscribeToProxy envOwnU txR4 resC4.related [txF4, txR4]
    ∧ resC4.action = (if resC4.needsSubscription then
        (if getProxyAddress envOwnU txR4 == txR4.recipient then ProxyAction.addFundedProxy
         else ProxyAction.addClaimedProxy)
      else ProxyAction.removeProxy) :=
  needs_subscription_characterization.2.1 envOwnU txR4 knownC4 [txF4, txR4] resC4
    (by decide) (by decide)

/-- C7: the first-seen transaction at a fresh proxy whose entry exists in the
store yields no related transaction and `needsSubscription = true`; but when
the store holds no entry at all for the proxy address the code throws
(`Object.values(undefined)` raises a TypeError), modelled by `none`. -/
theorem first_seen_fresh_proxy :
    handleProxyTransaction envOwnU txF5 knownC5only
      = some ⟨none, true, ProxyAction.addFundedProxy⟩
    ∧ handleProxyTransaction envOwnU txF5 (fun _ => none) = none :=
  ⟨by decide, rfl⟩

/-- C8 counterexample: the candidate set is not restricted to exclude `tx`
itself — a self-loop transaction (sender = recipient = proxy address, fee 0,
no timestamp, no block height) is returned by the heuristic search as its own
related transaction. -/
theorem self_match_counterexample :
    txSelf.relatedTransactionHash = none
    ∧ txSelf.sender = txSelf.recipient
    ∧ (handleProxyTransaction envOwnP8 txSelf knownSelf).map (fun r => r.related)
        = some (some txSelf) :=
  ⟨rfl, rfl, by decide⟩

/-- C8 amended: the filter never excludes `tx` by identity, but whenever
`tx.sender ≠ tx.recipient` the role check bars `tx` from its own candidate set,
so the heuristic search never returns `tx` itself; only a self-loop transaction
(sender = recipient) can be matched to itself. -/
theorem heuristic_no_self_match_amended :
    ∀ (env : Env) (tx : Transaction) (known : String → Option (List Transaction))
      (res : HandleResult),
      tx.sender ≠ tx.recipient →
      truthyStr tx.relatedTransactionHash = false →
      handleProxyTransaction env tx known = some res →
      res.related ≠ some tx := by
  intro env tx known res hsr hrth h
  cases hk : known (getProxyAddress env tx) with
  | none => simp [handleProxyTransaction, hk] at h
  | some ptxs =>
    simp only [handleProxyTransaction, hk, hrth, Bool.false_eq_true, if_false,
      Option.some.injEq] at h
    subst h
    intro hcontra
    have hmem : tx ∈ ptxs.filter (isPotentialRelatedTx env tx (getProxyAddress env tx)
        (isProxyData tx.dataRaw (some ProxyType.CASHLINK) none)
        (getProxyAddress env tx == tx.recipient)) := by
      rcases foldl_selectStep_mem _ _ none tx hcontra with h' | h'
      · cases h'
      · exact h'
    have hpred := (List.mem_filter.mp hmem).2
    have hrole := isPotentialRelatedTx_role _ _ _ _ _ _ hpred
    by_cases hfn : (getProxyAddress env tx == tx.recipient) = true
    · have hpa : getProxyAddress env tx = tx.recipient := by simpa using hfn
      rw [hfn, if_pos rfl] at hrole
      exact hsr (hrole.trans hpa)
    · have hpa : getProxyAddress env tx ≠ tx.recipient := by simpa using hfn
      rw [Bool.not_eq_true] at hfn
      rw [hfn, if_neg (by simp)] at hrole
      exact hpa hrole.symm

/-- Witness for `heuristic_no_self_match_amended` at the cashlink redeeming
fixture, whose sender and recipient differ. -/
theorem heuristic_no_self_match_witness :
    resC1.related ≠ some txRc :=
  heuristic_no_self_match_amended envOwnU txRc knownC1 resC1 (by decide) (by decide)
    (by decide)

/-- C9: when `tx.relatedTransactionHash` is set, the returned related
transaction is exactly the result of the hash lookup in the known set (`none`
when no known transaction carries that hash), and the heuristic search is
skipped. Concretely, the linked redeeming tx resolves to its funding tx and a
dangling hash resolves to no related transaction. -/
theorem related_hash_lookup :
    (∀ (env : Env) (tx : Transaction) (known : String → Option (List Transaction))
        (ptxs : List Transaction) (res : HandleResult),
        truthyStr tx.relatedTransactionHash = true →
        known (getProxyAddress env tx) = some ptxs →
        handleProxyTransaction env tx known = some res →
        res.related = ptxs.find? (fun proxyTx =>
          some proxyTx.transactionHash == tx.relatedTransactionHash))
    ∧ (handleProxyTransaction envOwnU txR4 knownC4).map (fun r => r.related)
        = some (some txF4)
    ∧ (handleProxyTransaction envOwnU txR4z knownC9z).map (fun r => r.related)
        = some none := by
  refine ⟨?_, by decide, by decide⟩
  intro env tx known ptxs res hrth h1 h2
  simp only [handleProxyTransaction, h1, hrth, if_true, Option.some.injEq] at h2
  subst h2
  rfl

/-- Witness for `related_hash_lookup` at the linked confirmed pair. -/
theorem related_hash_lookup_witness :
    resC4.related = List.find? (fun proxyTx =>
      some proxyTx.transactionHash == txR4.relatedTransactionHash) [txF4, txR4] :=
  related_hash_lookup.1 envOwnU txR4 knownC4 [txF4, txR4] resC4
    (by decide) (by decide) (by decide)

/-- C10: a candidate replaces the current best only when strictly closer on the
mutually truthy ordering field — on equality the earlier-enumerated candidate
is kept — so with two tied surviving candidates the result depends on the
enumeration order of the known-transaction collection: the same set enumerated
as X,Y returns X and enumerated as Y,X returns Y. -/
theorem tie_kept_first :
    (∀ (isFunding : Bool) (best cand : Transaction),
        ((truthyNat best.timestamp && truthyNat cand.timestamp) = true →
          best.timestamp = cand.timestamp →
          closerThanBest isFunding best cand = false)
        ∧ ((truthyNat best.timestamp && truthyNat cand.timestamp) = false →
            (truthyNat best.blockHeight && truthyNat cand.blockHeight) = true →
            best.blockHeight = cand.blockHeight →
            closerThanBest isFunding best cand = false)
        ∧ ((truthyNat best.timestamp && truthyNat cand.timestamp) = false →
            (truthyNat best.blockHeight && truthyNat cand.blockHeight) = false →
            best.validityStartHeight = cand.validityStartHeight →
            closerThanBest isFunding best cand = false))
    ∧ (handleProxyTransaction envOwnU txRv knownTieXY).map (fun r => r.related)
        = some (some txXv)
    ∧ (handleProxyTransaction envOwnU txRv knownTieYX).map (fun r => r.related)
        = some (some txYv) := by
  refine ⟨?_, by decide, by decide⟩
  intro isFunding best cand
  refine ⟨?_, ?_, ?_⟩
  · intro hts heq
    rw [Bool.and_eq_true] at hts
    obtain ⟨h1, h2⟩ := hts
    cases isFunding <;> simp [closerThanBest, isCloser, h1, h2, heq]
  · intro hts hbh heq
    rw [Bool.and_eq_true] at hbh
    obtain ⟨h1, h2⟩ := hbh
    cases isFunding <;> simp [closerThanBest, isCloser, hts, h1, h2, heq]
  · intro hts hbh heq
    cases isFunding <;> simp [closerThanBest, isCloser, hts, hbh, heq]

/-- Witness for `tie_kept_first`: the two tied funding candidates do not
replace each other. -/
theorem tie_kept_first_witness :
    closerThanBest false txXv txYv = false :=
  (tie_kept_first.1 false txXv txYv).2.2 (by decide) (by decide) (by decide)

end ProxyDetection
